import Mathlib

/-!
Verification of the document-pointer resolution layer of the zato repository:
the JSON pointer store and the XPath expression store exercised by
`zato-server/test/zato/server/test_message.py`, and the CLI argument helper
`ZatoCommand._get_arg` from `zato-cli/src/zato/cli/__init__.py`.

The store classes themselves (`zato.server.message.JSONPointerStore` and
`zato.server.message.XPathStore`) are not part of the provided sources — only
their unit tests are — so their definitions below are modelled from the
specification, as indicated by each doc comment.  `_get_arg` is embedded
directly from the CLI source.
-/

/-! ## Association lists

Both stores keep a `data` mapping from a name to a stored entry.  We model a
Python dict restricted to the operations used (lookup, overwrite-insert) as an
association list keyed by strings, with lookup returning the first match and
insert overwriting the first match in place (or appending when absent).
-/

def assocLookup {α : Type} : List (String × α) → String → Option α
  | [], _ => none
  | (k, v) :: rest, key => if k = key then some v else assocLookup rest key

def assocInsert {α : Type} : List (String × α) → String → α → List (String × α)
  | [], key, value => [(key, value)]
  | (k, v) :: rest, key, value =>
    if k = key then (key, value) :: rest else (k, v) :: assocInsert rest key value

theorem assocLookup_insert {α : Type} (l : List (String × α)) (k : String) (v : α) :
    assocLookup (assocInsert l k v) k = some v := by
  induction l with
  | nil => simp [assocInsert, assocLookup]
  | cons hd tl ih =>
    obtain ⟨k1, v1⟩ := hd
    by_cases h : k1 = k <;> simp [assocInsert, assocLookup, h, ih]

theorem assocLookup_insert_ne {α : Type} (l : List (String × α)) (k k2 : String) (v : α)
    (hne : k ≠ k2) : assocLookup (assocInsert l k v) k2 = assocLookup l k2 := by
  induction l with
  | nil => simp [assocInsert, assocLookup, hne]
  | cons hd tl ih =>
    obtain ⟨k1, v1⟩ := hd
    by_cases h : k1 = k
    · subst h
      simp [assocInsert, assocLookup, hne]
    · simp [assocInsert, assocLookup, h, ih]

/-! ## Character-level string utilities

The path syntax is slash-delimited plain text (the spec: "ASCII string,
`/`-delimited, each segment a mapping key (any string) or a sequence index
(string form of a non-negative integer); no escaping rules beyond literal
segment text").  We split and parse on the character list underlying a
`String` so that every definition evaluates by kernel reduction.
-/

def splitChars (sep : Char) : List Char → List (List Char)
  | [] => [[]]
  | c :: rest =>
    let r := splitChars sep rest
    if c = sep then [] :: r
    else
      match r with
      | [] => [[c]]
      | g :: gs => (c :: g) :: gs

def digitVal (c : Char) : Option Nat :=
  if '0' ≤ c ∧ c ≤ '9' then some (c.toNat - '0'.toNat) else none

def parseIndexAux : List Char → Nat → Option Nat
  | [], acc => some acc
  | c :: rest, acc =>
    match digitVal c with
    | some d => parseIndexAux rest (acc * 10 + d)
    | none => none

/-- Parses the string form of a non-negative integer (used for sequence
indices in pointer paths); any non-digit character makes it fail. -/
def parseIndex (s : String) : Option Nat :=
  match s.data with
  | [] => none
  | cs => parseIndexAux cs 0

/-- Splits a pointer path into its segments: the text after the leading
slash, cut at every further slash. -/
def pathSegments (p : String) : List String :=
  ((splitChars '/' p.data).map String.mk).drop 1

/-! ## JSON-like documents -/

/-- A JSON-like document tree: the null value, booleans, integers, strings,
sequences and mappings (a mapping is a key-ordered association list). -/
inductive JValue where
  | null
  | bool (b : Bool)
  | int (n : Int)
  | str (s : String)
  | arr (xs : List JValue)
  | obj (fields : List (String × JValue))

/-- Resolves a list of path segments against a document by walking segments:
mapping lookup by key if the current node is a mapping, sequence lookup by
integer index if the current node is a sequence; `none` when the path cannot
be followed. -/
def resolveSegs : List String → JValue → Option JValue
  | [], v => some v
  | s :: rest, .obj fields =>
    match assocLookup fields s with
    | some child => resolveSegs rest child
    | none => none
  | s :: rest, .arr xs =>
    match parseIndex s with
    | some i =>
      match xs.get? i with
      | some child => resolveSegs rest child
      | none => none
    | none => none
  | _ :: _, _ => none

/-- Resolves a whole pointer path string against a document. -/
def resolvePath (p : String) (doc : JValue) : Option JValue :=
  resolveSegs (pathSegments p) doc

/-- Writes `value` at the given segments inside `doc`: resolves down to the
parent container and assigns at the final segment (mapping key or sequence
index), creating intermediate mapping nodes when a segment is absent from its
mapping parent; writing through a non-container or past the end of an
existing sequence is rejected (`none`), as the specification leaves
sequence auto-extension unsupported. -/
def setSegs : List String → JValue → JValue → Option JValue
  | [], _, value => some value
  | s :: rest, .obj fields, value =>
    (setSegs rest ((assocLookup fields s).getD (.obj [])) value).map
      fun c => .obj (assocInsert fields s c)
  | s :: rest, .arr xs, value =>
    match parseIndex s with
    | some i =>
      match xs.get? i with
      | some child => (setSegs rest child value).map fun c => .arr (xs.set i c)
      | none => none
    | none => none
  | _ :: _, _, _ => none

theorem resolve_setSegs (segs : List String) (doc value d : JValue)
    (h : setSegs segs doc value = some d) : resolveSegs segs d = some value := by
  induction segs generalizing doc d with
  | nil =>
    simp only [setSegs, Option.some.injEq] at h
    subst h
    rfl
  | cons s rest ih =>
    cases doc with
    | obj fields =>
      simp only [setSegs] at h
      cases hc : setSegs rest ((assocLookup fields s).getD (.obj [])) value with
      | none => rw [hc] at h; simp at h
      | some c =>
        rw [hc] at h
        simp only [Option.map_some', Option.some.injEq] at h
        subst h
        simp only [resolveSegs, assocLookup_insert]
        exact ih _ _ hc
    | arr xs =>
      simp only [setSegs] at h
      cases hi : parseIndex s with
      | none => rw [hi] at h; simp at h
      | some i =>
        simp only [hi] at h
        cases hx : xs.get? i with
        | none => rw [hx] at h; simp at h
        | some child =>
          simp only [hx] at h
          cases hc : setSegs rest child value with
          | none => rw [hc] at h; simp at h
          | some c =>
            rw [hc] at h
            simp only [Option.map_some', Option.some.injEq] at h
            subst h
            have hlen : i < xs.length := by
              by_contra hge
              rw [List.get?_eq_none.mpr (Nat.le_of_not_lt hge)] at hx
              exact Option.noConfusion hx
            simp only [resolveSegs, hi]
            rw [List.get?_set_eq_of_lt c hlen]
            exact ih _ _ hc
    | null => simp [setSegs] at h
    | bool b => simp [setSegs] at h
    | int n => simp [setSegs] at h
    | str t => simp [setSegs] at h

/-! ## The JSON pointer store -/

/-- Modelled from the spec: the stored entry of `zato.server.message.JSONPointerStore`
(the class itself is absent from the provided sources; only its unit tests
are).  An entry pairs the registration name with the pointer path text. -/
structure PointerEntry where
  name : String
  path : String
deriving DecidableEq

/-- Errors surfaced by the stores: an unregistered name (Python raises
`LookupError`/`KeyError`), an unwritable path on `set`, a zero-match
evaluation with `fail_on_missing` (Python `NotFoundError`), and a
malformed expression at registration time. -/
inductive StoreError where
  | lookupError
  | badPath
  | notFound
  | compileFailed
deriving DecidableEq

/-- Modelled from the spec: `zato.server.message.JSONPointerStore` (absent
from the provided sources), a mapping from a name to its stored entry. -/
structure JSONPointerStore where
  data : List (String × PointerEntry)
deriving DecidableEq

/-- Modelled from the spec: `JSONPointerStore.add(name, path)` stores the
path as plain text under `name`, overwriting any existing entry for that
name; no validation happens at registration time. -/
def JSONPointerStore.add (store : JSONPointerStore) (name : String) (path : String) :
    JSONPointerStore :=
  ⟨assocInsert store.data name ⟨name, path⟩⟩

/-- The value `get` produces once the entry's path is known: the default when
the path cannot be followed or resolves to the null value, the resolved value
otherwise. -/
def getViaPath (p : String) (doc default : JValue) : JValue :=
  match resolvePath p doc with
  | none => default
  | some .null => default
  | some v => v

/-- Modelled from the spec: `JSONPointerStore.get(name, doc, default)`
(absent from the provided sources).  Fails with `LookupError` when `name` is
not registered; otherwise returns the default when the path cannot be
followed or resolves to null, and the resolved value otherwise.  The Python
`default` parameter defaults to `None`, written here as an explicit
`JValue.null` argument at call sites. -/
def JSONPointerStore.get (store : JSONPointerStore) (name : String)
    (doc default : JValue) : Except StoreError JValue :=
  match assocLookup store.data name with
  | none => .error .lookupError
  | some entry => .ok (getViaPath entry.path doc default)

/-- The outcome of a `set` call in the pure embedding: the document the call
returns, and the state of the caller's document after the call (mutation is
made explicit: with `in_place` the caller's document becomes the result, and
without it the call works on a deep copy so the caller's document is
untouched). -/
structure SetOutcome where
  returned : JValue
  original : JValue

/-- Modelled from the spec: `JSONPointerStore.set(name, doc, value, in_place)`
(absent from the provided sources).  Fails with `LookupError` when `name` is
not registered; otherwise assigns `value` at the entry's path, creating
missing intermediate mapping nodes, rejecting unwritable paths.  When
`in_place` is true the caller's document is mutated to the result; when
false the call deep-copies, leaving the caller's document unmodified, and
returns the mutated copy.  The Python `in_place` parameter defaults to
`True`, written here as an explicit argument at call sites. -/
def JSONPointerStore.set (store : JSONPointerStore) (name : String)
    (doc value : JValue) (inPlace : Bool) : Except StoreError SetOutcome :=
  match assocLookup store.data name with
  | none => .error .lookupError
  | some entry =>
    match setSegs (pathSegments entry.path) doc value with
    | none => .error .badPath
    | some d => .ok (if inPlace then ⟨d, d⟩ else ⟨d, doc⟩)

example : resolvePath "/a/b" (.obj [("a", .obj [("b", .int 7)])]) = some (.int 7) := rfl
example : resolvePath "/a/1" (.obj [("a", .arr [.int 1, .int 2])]) = some (.int 2) := rfl
example : resolvePath "/a/2" (.obj [("a", .arr [.int 1, .int 2])]) = none := rfl
example : setSegs ["a", "b"] (.obj []) (.int 3)
    = some (.obj [("a", .obj [("b", .int 3)])]) := rfl
example : ((JSONPointerStore.mk []).add "8" "/f").get "8"
    (.obj [("f", .int 0)]) (.str "D") = .ok (.int 0) := rfl
example : ((JSONPointerStore.mk []).add "6" "/e").get "6"
    (.obj [("e", .null)]) (.str "X") = .ok (.str "X") := rfl
example : ((JSONPointerStore.mk []).add "7" "/e/e2/e3").get "7"
    (.obj [("e", .null)]) (.str "Y") = .ok (.str "Y") := rfl

/-! ## XML documents and the XPath store

The XPath engine itself is the external lxml library; per the spec the store
compiles "a standard path-query expression over an XML tree, with namespace
prefixes resolved via an explicit prefix-to-URI mapping supplied at
registration".  The expressions exercised by the tests are absolute paths
(`/root/elem1`) and descendant paths (`//list1/item1`, `//jt:elem2`), so the
model covers exactly that structural subset.  Parsing and serialization of
the XML wire form are performed entirely by the external library; the model
identifies the byte buffer with the parsed tree (parse and serialize are the
identity correspondence).
-/

/-- A qualified element name: namespace URI (empty for no namespace) and
local name. -/
abbrev QName := String × String

mutual
/-- An XML element: qualified tag, text content, and child elements. -/
inductive XNode where
  | elem (tag : QName) (text : String) (children : XNodes)
deriving DecidableEq
/-- A list of sibling XML elements (a separate mutual type so that all
recursions and inductions are structural). -/
inductive XNodes where
  | nil
  | cons (head : XNode) (tail : XNodes)
deriving DecidableEq
end

def XNode.tag : XNode → QName
  | .elem t _ _ => t

def XNode.text : XNode → String
  | .elem _ x _ => x

/-- A compiled path expression: whether it is anchored at the document root
(`/a/b`) or may start at any descendant (`//a/b`), and the resolved
qualified-name segments. -/
structure XPathExpr where
  anchored : Bool
  segs : List QName
deriving DecidableEq

/-- Compiles one expression segment, resolving `prefix:local` through the
namespace map (an unresolvable prefix is a compile failure, as in the
external engine) and reading an unprefixed segment as having no namespace. -/
def compileSeg (nsMap : List (String × String)) (cs : List Char) : Option QName :=
  match splitChars ':' cs with
  | [l] => if l = [] then none else some ("", String.mk l)
  | [p, l] =>
    match assocLookup nsMap (String.mk p) with
    | some uri => if l = [] then none else some (uri, String.mk l)
    | none => none
  | _ => none

/-- Compiles an expression string: `//`-prefixed expressions are descendant
paths, `/`-prefixed ones are anchored at the root; anything else is outside
the modelled subset and fails to compile. -/
def compileExpr (nsMap : List (String × String)) (expr : String) : Option XPathExpr :=
  match expr.data with
  | '/' :: '/' :: rest =>
    ((splitChars '/' rest).mapM (compileSeg nsMap)).map (XPathExpr.mk false)
  | '/' :: rest =>
    ((splitChars '/' rest).mapM (compileSeg nsMap)).map (XPathExpr.mk true)
  | _ => none

/-- Whether one of the pending suffixes is completed by a node with tag `t`
(the node itself is then a match). -/
def matchedHere (t : QName) (S : List (List QName)) : Bool :=
  S.any fun s => s = [t]

/-- The suffixes the children of a node with tag `t` must continue: the
tails of every pending suffix whose head names `t`. -/
def childSufs (t : QName) (S : List (List QName)) : List (List QName) :=
  S.filterMap fun s =>
    match s with
    | [] => none
    | [_] => none
    | q :: qs => if q = t then some qs else none

/-- The suffixes active at a node: for a descendant path (`full = some segs`)
the whole expression restarts at every node, an anchored path only keeps the
suffixes propagated from the parent. -/
def startSet (full : Option (List QName)) (S : List (List QName)) : List (List QName) :=
  match full with
  | some f => f :: S
  | none => S

mutual
/-- Evaluates the pending suffixes against a node, collecting every matched
element in document order. -/
def evalAux (full : Option (List QName)) (S : List (List QName)) : XNode → List XNode
  | .elem t x cs =>
    (if matchedHere t (startSet full S) then [XNode.elem t x cs] else [])
      ++ evalAuxL full (childSufs t (startSet full S)) cs
def evalAuxL (full : Option (List QName)) (S : List (List QName)) : XNodes → List XNode
  | .nil => []
  | .cons c cs => evalAux full S c ++ evalAuxL full S cs
end

/-- Evaluates a compiled expression against a document tree, returning the
sequence of matched elements. -/
def evalExpr (e : XPathExpr) (root : XNode) : List XNode :=
  if e.anchored then evalAux none [e.segs] root
  else evalAux (some e.segs) [] root

mutual
/-- The replacement traversal: same walk as `evalAux`, but rebuilding the
tree with the text content of every matched node set to `v`. -/
def replAux (full : Option (List QName)) (v : String) (S : List (List QName)) :
    XNode → XNode
  | .elem t x cs =>
    XNode.elem t (if matchedHere t (startSet full S) then v else x)
      (replAuxL full v (childSufs t (startSet full S)) cs)
def replAuxL (full : Option (List QName)) (v : String) (S : List (List QName)) :
    XNodes → XNodes
  | .nil => .nil
  | .cons c cs => .cons (replAux full v S c) (replAuxL full v S cs)
end

/-- Sets the text content of every node matched by a compiled expression. -/
def replaceExpr (e : XPathExpr) (v : String) (root : XNode) : XNode :=
  if e.anchored then replAux none v [e.segs] root
  else replAux (some e.segs) v [] root

/-- Modelled from the spec: the stored entry of `zato.server.message.XPathStore`
(the class is absent from the provided sources): the name, the expression
text, the namespace map used at registration, and the compiled expression,
which always reflects the currently registered expression and map. -/
structure XPathEntry where
  name : String
  expression : String
  nsMap : List (String × String)
  compiled : XPathExpr
deriving DecidableEq

/-- The registration argument of `XPathStore.add`: the test builds a config
object carrying the entry name and the expression text in its `value`
field. -/
structure XPathConfig where
  name : String
  value : String
deriving DecidableEq

/-- Modelled from the spec: `zato.server.message.XPathStore` (absent from
the provided sources), a mapping from a name to its compiled entry. -/
structure XPathStore where
  data : List (String × XPathEntry)
deriving DecidableEq

/-- Modelled from the spec: `XPathStore.add(name, config, ns_map)` compiles
`config.value` using the namespace map and stores the entry under `name`,
overwriting any existing entry; a malformed expression propagates as an
error from the compilation step. -/
def XPathStore.add (store : XPathStore) (name : String) (config : XPathConfig)
    (nsMap : List (String × String)) : Except StoreError XPathStore :=
  match compileExpr nsMap config.value with
  | none => .error .compileFailed
  | some compiled =>
    .ok ⟨assocInsert store.data name ⟨name, config.value, nsMap, compiled⟩⟩

/-- Modelled from the spec: `XPathStore.invoke(xml_bytes, name, fail_on_missing)`
(absent from the provided sources).  Evaluates the compiled expression for
`name` against the document and returns the matched sequence; with
`fail_on_missing` an empty result fails with `NotFoundError`, without it the
empty sequence is returned without error.  An unregistered name fails. -/
def XPathStore.invoke (store : XPathStore) (doc : XNode) (name : String)
    (failOnMissing : Bool) : Except StoreError (List XNode) :=
  match assocLookup store.data name with
  | none => .error .lookupError
  | some entry =>
    let r := evalExpr entry.compiled doc
    if failOnMissing && r.isEmpty then .error .notFound else .ok r

/-- Modelled from the spec: `XPathStore.replace(xml_bytes, name, new_value)`
(absent from the provided sources).  Sets the text content of every node
matched by the compiled expression for `name` to `new_value` and returns the
re-serialized document; the caller's buffer is untouched by construction
since parsing produces a new tree.  An unregistered name fails. -/
def XPathStore.replace (store : XPathStore) (doc : XNode) (name : String)
    (newValue : String) : Except StoreError XNode :=
  match assocLookup store.data name with
  | none => .error .lookupError
  | some entry => .ok (replaceExpr entry.compiled newValue doc)

mutual
theorem repl_eval (full : Option (List QName)) (v : String) (S : List (List QName))
    (n : XNode) :
    (∀ m ∈ evalAux full S (replAux full v S n), m.text = v) ∧
      (evalAux full S (replAux full v S n)).length = (evalAux full S n).length := by
  cases n with
  | elem t x cs =>
    have ih := repl_evalL full v (childSufs t (startSet full S)) cs
    simp only [replAux, evalAux]
    constructor
    · intro m hm
      rcases List.mem_append.mp hm with h | h
      · by_cases hmt : matchedHere t (startSet full S)
        · simp only [hmt, if_true, List.mem_singleton] at h
          subst h
          simp [hmt, XNode.text]
        · simp [hmt] at h
      · exact ih.1 m h
    · by_cases hmt : matchedHere t (startSet full S) <;>
        simp [hmt, ih.2]
theorem repl_evalL (full : Option (List QName)) (v : String) (S : List (List QName))
    (ns : XNodes) :
    (∀ m ∈ evalAuxL full S (replAuxL full v S ns), m.text = v) ∧
      (evalAuxL full S (replAuxL full v S ns)).length = (evalAuxL full S ns).length := by
  cases ns with
  | nil => simp [replAuxL, evalAuxL]
  | cons c cs =>
    have ih1 := repl_eval full v S c
    have ih2 := repl_evalL full v S cs
    simp only [replAuxL, evalAuxL]
    constructor
    · intro m hm
      rcases List.mem_append.mp hm with h | h
      · exact ih1.1 m h
      · exact ih2.1 m h
    · simp [ih1.2, ih2.2]
end

/-- The replace-then-evaluate relation lifted to compiled expressions: after
`replaceExpr` every node the expression matches carries the new text, and the
number of matches is unchanged. -/
theorem evalExpr_replaceExpr (e : XPathExpr) (v : String) (root : XNode) :
    (∀ m ∈ evalExpr e (replaceExpr e v root), m.text = v) ∧
      (evalExpr e (replaceExpr e v root)).length = (evalExpr e root).length := by
  by_cases h : e.anchored <;>
    simp only [evalExpr, replaceExpr, h, if_true, if_false] <;>
    exact repl_eval _ v _ root

/-- The XML document of the `TestXPathStore.test_replace` unit test (element
text shown there as whitespace around child elements is dropped; the matched
leaf texts are kept). -/
def testXml : XNode :=
  .elem ("", "root") ""
    (.cons (.elem ("", "elem1") "elem1" .nil)
      (.cons (.elem ("just-testing", "elem2") "elem2" .nil)
        (.cons
          (.elem ("", "list1") ""
            (.cons (.elem ("", "item1") "item" .nil)
              (.cons (.elem ("", "item1") "item" .nil)
                (.cons
                  (.elem ("", "item2") ""
                    (.cons (.elem ("", "key") "key" .nil) .nil))
                  .nil))))
          .nil)))

example : compileExpr [("jt", "just-testing")] "//jt:elem2"
    = some ⟨false, [("just-testing", "elem2")]⟩ := by decide
example : compileExpr [] "/root/elem1" = some ⟨true, [("", "root"), ("", "elem1")]⟩ := by
  decide
example : (compileExpr [] "//list1/item1").map (fun e => (evalExpr e testXml).length)
    = some 2 := by decide
example : compileExpr [] "root/elem1" = none := by decide

/-! ## The CLI argument helper

`ZatoCommand._get_arg` is present in the sources
(`zato-cli/src/zato/cli/__init__.py`):

    def _get_arg(self, args, name, default):
        value = getattr(args, name, None)
        return value if value else default

The `args` object is an attribute bag; we model it as an association list
from attribute name to a Python value, with Python truthiness made
explicit. -/

/-- The Python values relevant to CLI arguments: `None`, booleans, integers
and strings. -/
inductive PyValue where
  | none
  | bool (b : Bool)
  | int (n : Int)
  | str (s : String)
deriving DecidableEq

/-- Python truthiness: `None`, `False`, `0` and the empty string are falsy;
everything else is truthy. -/
def PyValue.truthy : PyValue → Bool
  | .none => false
  | .bool b => b
  | .int n => decide (n ≠ 0)
  | .str s => decide (s ≠ "")

/-- Python `getattr(args, name, default)` on an attribute bag. -/
def getattr (args : List (String × PyValue)) (name : String) (default : PyValue) :
    PyValue :=
  (assocLookup args name).getD default

/-- `ZatoCommand._get_arg(args, name, default)`, embedded from the source:
reads the attribute with `getattr(args, name, None)` and returns it when it
is truthy, the default otherwise. -/
def _get_arg (args : List (String × PyValue)) (name : String) (default : PyValue) :
    PyValue :=
  let value := getattr args name .none
  if value.truthy then value else default

example : _get_arg [("common_name", .str "")] "common_name" (.str "cn") = .str "cn" := by
  decide
example : _get_arg [] "common_name" (.str "cn") = .str "cn" := by decide
example : _get_arg [("country", .str "AU")] "country" (.str "cn") = .str "AU" := by decide

/-! ## Claims -/

/-- C1: for every PointerStore and every name `n`, after `add(n, p1); add(n, p2)`
the entry stored under `n` has path `p2`, and `get(n, doc)` resolves against
the document using `p2`, not `p1` (last write wins on duplicate
registration). -/
theorem c1_add_last_write_wins (store : JSONPointerStore) (n p1 p2 : String)
    (doc default : JValue) :
    assocLookup ((store.add n p1).add n p2).data n = some ⟨n, p2⟩ ∧
      ((store.add n p1).add n p2).get n doc default = .ok (getViaPath p2 doc default) := by
  have hl : assocLookup ((store.add n p1).add n p2).data n = some ⟨n, p2⟩ := by
    simp only [JSONPointerStore.add]
    apply assocLookup_insert
  refine ⟨hl, ?_⟩
  simp [JSONPointerStore.get, hl]

/-- C2: for every registered name whose path resolves in the document to a
present value that is not null (such as the integer 0), `get(name, doc,
default)` returns that value itself and not the default; absence is decided
by being null or missing, never by boolean truthiness. -/
theorem c2_falsy_present_value_returned (store : JSONPointerStore) (name : String)
    (entry : PointerEntry) (doc default v : JValue)
    (hlook : assocLookup store.data name = some entry)
    (hres : resolvePath entry.path doc = some v)
    (hv : v ≠ JValue.null) :
    store.get name doc default = .ok v := by
  simp only [JSONPointerStore.get, hlook]
  have hg : getViaPath entry.path doc default = v := by
    cases v with
    | null => exact absurd rfl hv
    | bool b => simp [getViaPath, hres]
    | int n => simp [getViaPath, hres]
    | str s => simp [getViaPath, hres]
    | arr xs => simp [getViaPath, hres]
    | obj fields => simp [getViaPath, hres]
  rw [hg]

theorem c2_witness :
    ((JSONPointerStore.mk []).add "8" "/f").get "8" (.obj [("f", .int 0)]) (.str "D")
      = .ok (.int 0) :=
  c2_falsy_present_value_returned _ "8" ⟨"8", "/f"⟩ _ (.str "D") (.int 0)
    (by rfl) (by rfl) (by simp)

/-- C3: for every registered name, `get(name, doc, default)` returns the
caller-supplied default, without raising, exactly when the path cannot be
followed in the document or resolves to the null value — in particular a
path to an explicit null yields the default, not null — and returns the
resolved value itself in every other case. -/
theorem c3_default_on_absent_or_null (store : JSONPointerStore) (name : String)
    (entry : PointerEntry) (doc default : JValue)
    (hlook : assocLookup store.data name = some entry) :
    ((resolvePath entry.path doc = none ∨ resolvePath entry.path doc = some JValue.null) →
        store.get name doc default = .ok default) ∧
      (∀ v, resolvePath entry.path doc = some v → v ≠ JValue.null →
        store.get name doc default = .ok v) := by
  constructor
  · intro h
    simp only [JSONPointerStore.get, hlook]
    rcases h with h | h <;> simp [getViaPath, h]
  · intro v hres hv
    simp only [JSONPointerStore.get, hlook]
    have hg : getViaPath entry.path doc default = v := by
      cases v with
      | null => exact absurd rfl hv
      | bool b => simp [getViaPath, hres]
      | int n => simp [getViaPath, hres]
      | str s => simp [getViaPath, hres]
      | arr xs => simp [getViaPath, hres]
      | obj fields => simp [getViaPath, hres]
    rw [hg]

theorem c3_witness :
    ((JSONPointerStore.mk []).add "6" "/e").get "6" (.obj [("e", .null)]) (.str "X")
      = .ok (.str "X") :=
  (c3_default_on_absent_or_null _ "6" ⟨"6", "/e"⟩ (.obj [("e", .null)]) (.str "X")
    (by rfl)).1 (Or.inr (by rfl))

/-- C4 counterexample: the claim quantifies over every registered name and
document, but `set(..., in_place=False)` does not return a new document when
the path is unwritable in the document — here the registered path `/a/b`
must traverse the non-container value stored under `a`, so the call fails
instead of returning a document. -/
theorem c4_counterexample :
    ((JSONPointerStore.mk []).add "n" "/a/b").set "n" (.obj [("a", .int 5)])
      (.str "new") false = .error .badPath := rfl

/-- C4 (amended): for every registered name and document on which the set
operation succeeds, `set(name, doc, value, in_place=False)` returns a new
document in which the path for the name resolves to the value, while the
caller's original document is left entirely unmodified (the operation works
on a deep copy). -/
theorem c4_set_copy_preserves_original (store : JSONPointerStore) (name : String)
    (entry : PointerEntry) (doc value : JValue) (out : SetOutcome)
    (hlook : assocLookup store.data name = some entry)
    (hset : store.set name doc value false = .ok out) :
    out.original = doc ∧ resolvePath entry.path out.returned = some value := by
  simp only [JSONPointerStore.set, hlook] at hset
  cases hs : setSegs (pathSegments entry.path) doc value with
  | none => rw [hs] at hset; exact Except.noConfusion hset
  | some d =>
    rw [hs] at hset
    simp only [Bool.false_eq_true, if_false, Except.ok.injEq] at hset
    subst hset
    exact ⟨rfl, resolve_setSegs _ _ _ _ hs⟩

theorem c4_witness :
    (⟨.obj [("a", .obj [("b", .str "new")])], .obj [("a", .obj [("b", .str "old")])]⟩ :
        SetOutcome).original = .obj [("a", .obj [("b", .str "old")])] ∧
      resolvePath "/a/b" (.obj [("a", .obj [("b", .str "new")])]) = some (.str "new") :=
  c4_set_copy_preserves_original ((JSONPointerStore.mk []).add "2" "/a/b") "2"
    ⟨"2", "/a/b"⟩ (.obj [("a", .obj [("b", .str "old")])]) (.str "new") _
    (by rfl) (by rfl)

/-- C8 counterexample: the claim quantifies over every registered name and
mapping document, but `set(..., in_place=True)` rejects a path that indexes
an existing sequence out of range (the spec leaves sequence auto-extension
unsupported), so nothing is assigned and a subsequent `get` returns the
default, not the assigned value. -/
theorem c8_counterexample :
    ((JSONPointerStore.mk []).add "n" "/a/5").set "n" (.obj [("a", .arr [.null])])
        (.str "v") true = .error .badPath ∧
      ((JSONPointerStore.mk []).add "n" "/a/5").get "n" (.obj [("a", .arr [.null])])
        .null = .ok .null :=
  ⟨rfl, rfl⟩

/-- C8 (amended): for every registered name and mapping document on which the
set operation succeeds — the path neither indexes a sequence out of range nor
traverses a non-container value — `set(name, doc, value, in_place=True)`
assigns the value at the final path segment, creating any missing
intermediate mapping nodes along the path, so that a subsequent
`get(name, doc)` (whose default is null) returns the assigned value. -/
theorem c8_set_in_place_then_get (store : JSONPointerStore) (name : String)
    (entry : PointerEntry) (doc value : JValue) (out : SetOutcome)
    (hlook : assocLookup store.data name = some entry)
    (hset : store.set name doc value true = .ok out) :
    out.original = out.returned ∧ store.get name out.returned .null = .ok value := by
  simp only [JSONPointerStore.set, hlook] at hset
  cases hs : setSegs (pathSegments entry.path) doc value with
  | none => rw [hs] at hset; exact Except.noConfusion hset
  | some d =>
    rw [hs] at hset
    simp only [if_true, Except.ok.injEq] at hset
    subst hset
    refine ⟨rfl, ?_⟩
    have hres : resolvePath entry.path d = some value := resolve_setSegs _ _ _ _ hs
    simp only [JSONPointerStore.get, hlook]
    have hg : getViaPath entry.path d .null = value := by
      cases value with
      | null => simp [getViaPath, hres]
      | bool b => simp [getViaPath, hres]
      | int n => simp [getViaPath, hres]
      | str s => simp [getViaPath, hres]
      | arr xs => simp [getViaPath, hres]
      | obj fields => simp [getViaPath, hres]
    rw [hg]

theorem c8_witness :
    (⟨.obj [("a", .obj [("b", .int 9)])], .obj [("a", .obj [("b", .int 9)])]⟩ :
        SetOutcome).original
        = (⟨.obj [("a", .obj [("b", .int 9)])], .obj [("a", .obj [("b", .int 9)])]⟩ :
        SetOutcome).returned ∧
      ((JSONPointerStore.mk []).add "2" "/a/b").get "2"
        (.obj [("a", .obj [("b", .int 9)])]) .null = .ok (.int 9) :=
  c8_set_in_place_then_get ((JSONPointerStore.mk []).add "2" "/a/b") "2"
    ⟨"2", "/a/b"⟩ (.obj []) (.int 9) _ (by rfl) (by rfl)

/-- C9: for two distinct registered names, re-registering the first leaves
the stored entry for the second unchanged, so `get` for the second name
resolves identically before and after the re-`add` of the first. -/
theorem c9_readd_independent (store : JSONPointerStore) (n1 n2 p : String)
    (doc default : JValue) (hne : n1 ≠ n2) :
    assocLookup (store.add n1 p).data n2 = assocLookup store.data n2 ∧
      (store.add n1 p).get n2 doc default = store.get n2 doc default := by
  have hl : assocLookup (store.add n1 p).data n2 = assocLookup store.data n2 := by
    simp only [JSONPointerStore.add]
    exact assocLookup_insert_ne _ n1 n2 _ hne
  exact ⟨hl, by simp [JSONPointerStore.get, hl]⟩

theorem c9_witness :
    assocLookup (((JSONPointerStore.mk []).add "2" "/b").add "1" "/x").data "2"
        = assocLookup ((JSONPointerStore.mk []).add "2" "/b").data "2" ∧
      (((JSONPointerStore.mk []).add "2" "/b").add "1" "/x").get "2"
          (.obj [("b", .int 1)]) .null
        = ((JSONPointerStore.mk []).add "2" "/b").get "2" (.obj [("b", .int 1)]) .null :=
  c9_readd_independent ((JSONPointerStore.mk []).add "2" "/b") "1" "2" "/x"
    (.obj [("b", .int 1)]) .null (by decide)

/-- C7: every store operation called with a name never passed to `add`
surfaces an unknown-name error to the caller — `get` raises `LookupError`
rather than returning the default, and `set`, `invoke` and `replace` fail the
same way. -/
theorem c7_unknown_name_error (ps : JSONPointerStore) (xs : XPathStore)
    (name : String) (doc default value : JValue) (xdoc : XNode) (newValue : String)
    (inPlace fom : Bool)
    (hp : assocLookup ps.data name = none)
    (hx : assocLookup xs.data name = none) :
    ps.get name doc default = .error .lookupError ∧
      ps.set name doc value inPlace = .error .lookupError ∧
      xs.invoke xdoc name fom = .error .lookupError ∧
      xs.replace xdoc name newValue = .error .lookupError := by
  refine ⟨?_, ?_, ?_, ?_⟩
  · simp [JSONPointerStore.get, hp]
  · simp [JSONPointerStore.set, hp]
  · simp [XPathStore.invoke, hx]
  · simp [XPathStore.replace, hx]

theorem c7_witness :
    (JSONPointerStore.mk []).get "missing" .null .null = .error .lookupError ∧
      (JSONPointerStore.mk []).set "missing" .null .null true = .error .lookupError ∧
      (XPathStore.mk []).invoke testXml "missing" true = .error .lookupError ∧
      (XPathStore.mk []).replace testXml "missing" "x" = .error .lookupError :=
  c7_unknown_name_error (JSONPointerStore.mk []) (XPathStore.mk []) "missing"
    .null .null .null testXml "x" true true (by rfl) (by rfl)

/-- A document with a single element named `b`, not matched by the
expression `/a`. -/
def xmlB : XNode := .elem ("", "b") "t" .nil

/-- A store holding the expression `/a` registered under the name `0`
(built through `add`, so the stored compiled form is the one `add`
produces). -/
def storeSlashA : XPathStore :=
  match (XPathStore.mk []).add "0" ⟨"0", "/a"⟩ [] with
  | .ok st => st
  | .error _ => XPathStore.mk []

/-- C5 counterexample: the claim quantifies over every registered name and
XML input, but when the compiled expression matches no node of the input
document, `replace` leaves the document unchanged and `invoke` on the result
yields the empty sequence, not a non-empty one. -/
theorem c5_counterexample :
    storeSlashA.replace xmlB "0" "x" = .ok xmlB ∧
      storeSlashA.invoke xmlB "0" false = .ok [] :=
  ⟨rfl, rfl⟩

/-- C5 (amended): for every registered PathStore name and XML input on which
the compiled expression matches at least one node, `replace(xml_bytes, name,
new_value)` sets the text content of every matched node (not just the first)
to the new value, and the returned serialized bytes round-trip: `invoke` on
the result yields a non-empty sequence, of the same length as on the input,
in which every matched node carries the new text value. -/
theorem c5_replace_roundtrip (xs : XPathStore) (name : String) (entry : XPathEntry)
    (doc : XNode) (v : String) (r0 : List XNode)
    (hlook : assocLookup xs.data name = some entry)
    (hinv : xs.invoke doc name false = .ok r0)
    (hne : r0.isEmpty = false) :
    xs.replace doc name v = .ok (replaceExpr entry.compiled v doc) ∧
      xs.invoke (replaceExpr entry.compiled v doc) name false
        = .ok (evalExpr entry.compiled (replaceExpr entry.compiled v doc)) ∧
      (evalExpr entry.compiled (replaceExpr entry.compiled v doc)).length = r0.length ∧
      (evalExpr entry.compiled (replaceExpr entry.compiled v doc)).isEmpty = false ∧
      (evalExpr entry.compiled (replaceExpr entry.compiled v doc)).all
        (fun m => m.text == v) = true := by
  have hr0 : r0 = evalExpr entry.compiled doc := by
    simp only [XPathStore.invoke, hlook, Bool.false_and] at hinv
    simp at hinv
    exact hinv.symm
  subst hr0
  have hrepl := evalExpr_replaceExpr entry.compiled v doc
  refine ⟨?_, ?_, hrepl.2, ?_, ?_⟩
  · simp [XPathStore.replace, hlook]
  · simp [XPathStore.invoke, hlook]
  · rw [Bool.eq_false_iff]
    intro habs
    rw [List.isEmpty_iff] at habs
    rw [Bool.eq_false_iff, Ne, List.isEmpty_iff] at hne
    apply hne
    have := hrepl.2
    rw [habs] at this
    exact List.eq_nil_of_length_eq_zero this.symm
  · rw [List.all_eq_true]
    intro m hm
    exact beq_iff_eq.mpr (hrepl.1 m hm)

/-- The stored entry the test's expression `//list1/item1` compiles to. -/
def testEntry3 : XPathEntry :=
  ⟨"2", "//list1/item1", [("jt", "just-testing")], ⟨false, [("", "list1"), ("", "item1")]⟩⟩

/-- A store holding the test's expression `//list1/item1` registered under
the name `2` (built through `add`). -/
def testStore3 : XPathStore :=
  match (XPathStore.mk []).add "2" ⟨"2", "//list1/item1"⟩ [("jt", "just-testing")] with
  | .ok st => st
  | .error _ => XPathStore.mk []

example : assocLookup testStore3.data "2" = some testEntry3 := by decide

theorem c5_witness :
    testStore3.replace testXml "2" "NEW" = .ok (replaceExpr testEntry3.compiled "NEW" testXml) ∧
      testStore3.invoke (replaceExpr testEntry3.compiled "NEW" testXml) "2" false
        = .ok (evalExpr testEntry3.compiled (replaceExpr testEntry3.compiled "NEW" testXml)) ∧
      (evalExpr testEntry3.compiled (replaceExpr testEntry3.compiled "NEW" testXml)).length
        = (evalExpr testEntry3.compiled testXml).length ∧
      (evalExpr testEntry3.compiled (replaceExpr testEntry3.compiled "NEW" testXml)).isEmpty
        = false ∧
      (evalExpr testEntry3.compiled (replaceExpr testEntry3.compiled "NEW" testXml)).all
        (fun m => m.text == "NEW") = true :=
  c5_replace_roundtrip testStore3 "2" testEntry3 testXml "NEW"
    (evalExpr testEntry3.compiled testXml) (by decide) (by rfl) (by decide)

/-- C6: for every registered PathStore name and XML input, when the compiled
expression matches zero nodes, `invoke` with `fail_on_missing` fails with
`NotFoundError` while without it the empty sequence is returned without
error; when matches exist, the matched sequence is returned in both
modes. -/
theorem c6_fail_on_missing (xs : XPathStore) (name : String) (entry : XPathEntry)
    (doc : XNode)
    (hlook : assocLookup xs.data name = some entry) :
    ((evalExpr entry.compiled doc).isEmpty = true →
        xs.invoke doc name true = .error .notFound ∧
          xs.invoke doc name false = .ok []) ∧
      ((evalExpr entry.compiled doc).isEmpty = false →
        xs.invoke doc name true = .ok (evalExpr entry.compiled doc) ∧
          xs.invoke doc name false = .ok (evalExpr entry.compiled doc)) := by
  constructor
  · intro h
    have hnil : evalExpr entry.compiled doc = [] := List.isEmpty_iff.mp h
    constructor <;> simp [XPathStore.invoke, hlook, hnil]
  · intro h
    constructor <;> simp [XPathStore.invoke, hlook, h]

theorem c6_witness :
    storeSlashA.invoke xmlB "0" true = .error .notFound ∧
      storeSlashA.invoke xmlB "0" false = .ok [] :=
  (c6_fail_on_missing storeSlashA "0" ⟨"0", "/a", [], ⟨true, [("", "a")]⟩⟩ xmlB
    (by decide)).1 (by decide)

/-- C10: `ZatoCommand._get_arg(args, name, default)` returns the default not
only when the attribute is absent on `args` but whenever its value is falsy
(empty string, 0, None, False): a present-but-falsy argument value is
indistinguishable from an absent one, because the check is plain Python
truthiness; only a present truthy value is returned. -/
theorem c10_get_arg_truthiness (args : List (String × PyValue)) (name : String)
    (default : PyValue) :
    (assocLookup args name = none → _get_arg args name default = default) ∧
      (∀ v, assocLookup args name = some v → v.truthy = false →
        _get_arg args name default = default) ∧
      (∀ v, assocLookup args name = some v → v.truthy = true →
        _get_arg args name default = v) := by
  refine ⟨?_, ?_, ?_⟩
  · intro h
    simp [_get_arg, getattr, h, PyValue.truthy]
  · intro v hl ht
    simp [_get_arg, getattr, hl, ht]
  · intro v hl ht
    simp [_get_arg, getattr, hl, ht]

theorem c10_witness :
    _get_arg [("common_name", .str "")] "common_name" (.str "fallback") = .str "fallback" ∧
      _get_arg [("organization", .int 0)] "organization" (.str "fb2") = .str "fb2" ∧
      _get_arg [] "locality" (.str "fb3") = .str "fb3" ∧
      _get_arg [("country", .str "AU")] "country" (.str "fb4") = .str "AU" :=
  ⟨(c10_get_arg_truthiness [("common_name", .str "")] "common_name"
      (.str "fallback")).2.1 (.str "") (by rfl) (by decide),
    (c10_get_arg_truthiness [("organization", .int 0)] "organization"
      (.str "fb2")).2.1 (.int 0) (by rfl) (by decide),
    (c10_get_arg_truthiness [] "locality" (.str "fb3")).1 (by rfl),
    (c10_get_arg_truthiness [("country", .str "AU")] "country"
      (.str "fb4")).2.2 (.str "AU") (by rfl) (by decide)⟩
